import Mathlib

/-!
Verification of the hanson ledger subsystem (`hanson/models/transaction.py`)
and the color utilities (`hanson/models/color.py`).

The ledger code is embedded as a pure state-passing model: the database state
is an explicit record of the `transaction`, `mutation`, `account_balance` and
`account` tables, and `create_transaction_income` is a function from a state to
either an error (a failed assertion rolls the open unit of work back, so no
state is returned) or a new state together with the returned transaction id.
Decimal amounts are embedded as exact rationals (`ℚ`), matching the exact
decimal arithmetic of the source (no floating point on the ledger path).

Parts of the repository referenced by the ledger code but whose source is not
available (`UserAccount.ensure_points_account`, the `Points` wrapper, and the
SQL function `account_current_balance`) are modelled from the spec; their doc
comments say so explicitly.
-/

namespace Hanson

abbrev AccountId := Nat
abbrev MutationId := Nat
abbrev TransactionId := Nat

/-- A row of the `transaction` table: `id` (auto-assigned), `type`. -/
structure TransactionRow where
  id : TransactionId
  type : String
deriving DecidableEq

/-- A row of the `mutation` table: `id` (auto-assigned), `transaction_id`,
`debit_account_id`, `amount` (signed exact decimal, embedded as `ℚ`). -/
structure MutationRow where
  id : MutationId
  transaction_id : TransactionId
  debit_account_id : AccountId
  amount : ℚ
deriving DecidableEq

/-- A row of the `account_balance` table: `(account_id, mutation_id)` with the
`post_balance` after that mutation. -/
structure AccountBalanceRow where
  account_id : AccountId
  mutation_id : MutationId
  post_balance : ℚ
deriving DecidableEq

/-- A row of the `account` table, restricted to the fields the ledger code
uses: the account id and the owning user's id. -/
structure AccountRow where
  id : AccountId
  user_id : Nat
deriving DecidableEq

/-- The database state visible to the ledger: the four tables, in insertion
order, plus the next value of each auto-increment id sequence. -/
structure DbState where
  accounts : List AccountRow
  transactions : List TransactionRow
  mutations : List MutationRow
  account_balances : List AccountBalanceRow
  next_transaction_id : TransactionId
  next_mutation_id : MutationId
  next_account_id : AccountId
deriving DecidableEq

/-- The empty database: no rows, id sequences starting at 1. -/
def DbState.empty : DbState :=
  { accounts := []
    transactions := []
    mutations := []
    account_balances := []
    next_transaction_id := 1
    next_mutation_id := 1
    next_account_id := 1 }

/-- The `account_balance` rows of one account, in table (insertion) order. -/
def snapshotsForL (l : List AccountBalanceRow) (aid : AccountId) :
    List AccountBalanceRow :=
  l.filter (fun r => r.account_id == aid)

/-- The `mutation` rows affecting one account, in table (insertion) order. -/
def mutationsForL (l : List MutationRow) (aid : AccountId) : List MutationRow :=
  l.filter (fun m => m.debit_account_id == aid)

/-- One step of the scan for the snapshot with the greatest `mutation_id`. -/
def latestStep (best : Option AccountBalanceRow) (r : AccountBalanceRow) :
    Option AccountBalanceRow :=
  match best with
  | none => some r
  | some b => if b.mutation_id < r.mutation_id then some r else some b

/-- The snapshot row with the greatest `mutation_id` among a list of rows
(`ORDER BY mutation_id DESC LIMIT 1`), if any. -/
def latestIn (l : List AccountBalanceRow) (aid : AccountId) :
    Option AccountBalanceRow :=
  (snapshotsForL l aid).foldl latestStep none

/-- Modelled from the spec: the SQL function `account_current_balance` (its
definition is not in the available source) returns the `post_balance` of the
account's latest snapshot, ordered by `mutation_id` descending, or NULL
(`none`) if the account has no snapshot. -/
def account_current_balance (s : DbState) (aid : AccountId) : Option ℚ :=
  (latestIn s.account_balances aid).map (fun r => r.post_balance)

/-- The current balance an account reads as: latest snapshot's `post_balance`,
or zero for a fresh account (this is the `COALESCE(..., 0)` in the source). -/
def currentOf (l : List AccountBalanceRow) (aid : AccountId) : ℚ :=
  ((latestIn l aid).map (fun r => r.post_balance)).getD 0

/-- The in-memory `UserAccount` value, restricted to the fields the ledger
code uses: the account id and the loaded `balance` (a `Points` amount). -/
structure UserAccount where
  id : AccountId
  balance : ℚ
deriving DecidableEq

/-- Modelled from the spec: `UserAccount.ensure_points_account` (its source is
not available) is an idempotent get-or-create. If the user already has a
points account it is returned with its current balance loaded; otherwise a
fresh account row is inserted and returned with balance zero (the spec:
"prior balance of a fresh account is zero"). -/
def ensure_points_account (s : DbState) (user_id : Nat) :
    DbState × UserAccount :=
  match s.accounts.find? (fun r => r.user_id == user_id) with
  | some r => (s, { id := r.id, balance := currentOf s.account_balances r.id })
  | none =>
      ({ s with
          accounts := s.accounts ++ [{ id := s.next_account_id, user_id }]
          next_account_id := s.next_account_id + 1 },
        { id := s.next_account_id, balance := 0 })

/-- The only failure of the embedded commit path: the final
`assert amount + account.balance == Points(post_balance)` in
`create_transaction_income` fails, which aborts the open unit of work. -/
inductive LedgerError where
  | assertionFailed
deriving DecidableEq

/-- `create_transaction_income` from `hanson/models/transaction.py`:
ensure the user's points account, insert the `transaction` row (obtaining
`transaction_id`), insert the `mutation` row (obtaining `mutation_id`), insert
the `account_balance` row with
`post_balance = COALESCE(account_current_balance(account_id), 0) + amount`,
assert `amount + account.balance == Points(post_balance)`, and return
`transaction_id`. A failed assertion aborts the unit of work: nothing is
persisted. -/
def create_transaction_income (s : DbState) (user_id : Nat) (amount : ℚ) :
    Except LedgerError (DbState × TransactionId) :=
  let p := ensure_points_account s user_id
  let s1 := p.1
  let account := p.2
  -- INSERT INTO "transaction" (type) VALUES ('income') RETURNING id
  let transaction_id := s1.next_transaction_id
  let s2 := { s1 with
    transactions := s1.transactions ++
      [({ id := transaction_id, type := "income" } : TransactionRow)]
    next_transaction_id := transaction_id + 1 }
  -- INSERT INTO "mutation" (transaction_id, debit_account_id, amount) RETURNING id
  let mutation_id := s2.next_mutation_id
  let s3 := { s2 with
    mutations := s2.mutations ++
      [({ id := mutation_id, transaction_id, debit_account_id := account.id,
          amount } : MutationRow)]
    next_mutation_id := mutation_id + 1 }
  -- INSERT INTO "account_balance" (account_id, mutation_id, post_balance)
  -- VALUES (..., COALESCE(account_current_balance(account_id), 0) + amount)
  -- RETURNING post_balance
  let post_balance :=
    ((account_current_balance s3 account.id).getD 0) + amount
  let s4 := { s3 with
    account_balances := s3.account_balances ++
      [({ account_id := account.id, mutation_id, post_balance } :
          AccountBalanceRow)] }
  -- assert amount + account.balance == Points(post_balance)
  if amount + account.balance = post_balance then
    Except.ok (s4, transaction_id)
  else
    Except.error LedgerError.assertionFailed

/-- The total of all mutation amounts ever applied to an account: the fold of
the account's history. -/
def historyTotal (s : DbState) (aid : AccountId) : ℚ :=
  ((mutationsForL s.mutations aid).map (fun m => m.amount)).sum

/-- Running partial sums: `runningSums c [a, b, ...] = [c+a, c+a+b, ...]`.
Used to state the snapshot-chain invariant. -/
def runningSums (c : ℚ) : List ℚ → List ℚ
  | [] => []
  | a :: rest => (c + a) :: runningSums (c + a) rest

/-- Apply a sequence of income operations `(user_id, amount)` starting from a
given state; a failed commit leaves the state unchanged (rollback). -/
def applyOps (s : DbState) : List (Nat × ℚ) → DbState
  | [] => s
  | (u, a) :: rest =>
      match create_transaction_income s u a with
      | Except.ok (s1, _) => applyOps s1 rest
      | Except.error _ => applyOps s rest

/-! ### Basic lemmas about the state after `ensure_points_account` -/

@[simp]
theorem ensure_fst_transactions (s : DbState) (u : Nat) :
    (ensure_points_account s u).1.transactions = s.transactions := by
  unfold ensure_points_account
  cases s.accounts.find? (fun r => r.user_id == u) <;> rfl

@[simp]
theorem ensure_fst_mutations (s : DbState) (u : Nat) :
    (ensure_points_account s u).1.mutations = s.mutations := by
  unfold ensure_points_account
  cases s.accounts.find? (fun r => r.user_id == u) <;> rfl

@[simp]
theorem ensure_fst_account_balances (s : DbState) (u : Nat) :
    (ensure_points_account s u).1.account_balances = s.account_balances := by
  unfold ensure_points_account
  cases s.accounts.find? (fun r => r.user_id == u) <;> rfl

@[simp]
theorem ensure_fst_next_transaction_id (s : DbState) (u : Nat) :
    (ensure_points_account s u).1.next_transaction_id = s.next_transaction_id := by
  unfold ensure_points_account
  cases s.accounts.find? (fun r => r.user_id == u) <;> rfl

@[simp]
theorem ensure_fst_next_mutation_id (s : DbState) (u : Nat) :
    (ensure_points_account s u).1.next_mutation_id = s.next_mutation_id := by
  unfold ensure_points_account
  cases s.accounts.find? (fun r => r.user_id == u) <;> rfl

/-- The state and account returned by `create_transaction_income` when the
final assertion passes: one new `transaction` row, one new `mutation` row, one
new `account_balance` row whose `post_balance` is the previous current balance
plus the amount. -/
def incomeResult (s : DbState) (u : Nat) (a : ℚ) : DbState :=
  let p := ensure_points_account s u
  { accounts := p.1.accounts
    transactions := s.transactions ++
      [({ id := s.next_transaction_id, type := "income" } : TransactionRow)]
    mutations := s.mutations ++
      [({ id := s.next_mutation_id, transaction_id := s.next_transaction_id,
          debit_account_id := p.2.id, amount := a } : MutationRow)]
    account_balances := s.account_balances ++
      [({ account_id := p.2.id, mutation_id := s.next_mutation_id,
          post_balance := currentOf s.account_balances p.2.id + a } :
            AccountBalanceRow)]
    next_transaction_id := s.next_transaction_id + 1
    next_mutation_id := s.next_mutation_id + 1
    next_account_id := p.1.next_account_id }

/-- `create_transaction_income` characterized: it succeeds exactly when the
final assertion holds, in which case it appends the three rows of
`incomeResult` and returns the fresh transaction id. -/
theorem create_transaction_income_eq (s : DbState) (u : Nat) (a : ℚ) :
    create_transaction_income s u a =
      if a + (ensure_points_account s u).2.balance
          = currentOf s.account_balances (ensure_points_account s u).2.id + a
      then Except.ok (incomeResult s u a, s.next_transaction_id)
      else Except.error LedgerError.assertionFailed := by
  unfold create_transaction_income incomeResult account_current_balance currentOf
  simp

/-! ### Lemmas about the latest-snapshot scan and per-account filters -/

theorem latestStep_foldl_mem (l : List AccountBalanceRow) :
    ∀ (o : Option AccountBalanceRow) (b : AccountBalanceRow),
      l.foldl latestStep o = some b → b ∈ l ∨ o = some b := by
  induction l with
  | nil =>
      intro o b h
      exact Or.inr h
  | cons x xs ih =>
      intro o b h
      rw [List.foldl_cons] at h
      rcases ih (latestStep o x) b h with hmem | ho
      · exact Or.inl (List.mem_cons_of_mem _ hmem)
      · cases o with
        | none =>
            have hx : x = b := by simpa [latestStep] using ho
            exact Or.inl (hx ▸ List.mem_cons_self x xs)
        | some c =>
            by_cases hc : c.mutation_id < x.mutation_id
            · have hx : x = b := by simpa [latestStep, hc] using ho
              exact Or.inl (hx ▸ List.mem_cons_self x xs)
            · have hcb : c = b := by simpa [latestStep, hc] using ho
              exact Or.inr (by rw [hcb])

theorem snapshotsForL_append (l : List AccountBalanceRow)
    (x : AccountBalanceRow) (aid : AccountId) :
    snapshotsForL (l ++ [x]) aid =
      snapshotsForL l aid ++ if x.account_id = aid then [x] else [] := by
  unfold snapshotsForL
  rw [List.filter_append]
  by_cases h : x.account_id = aid <;> simp [h]

theorem mutationsForL_append (l : List MutationRow) (x : MutationRow)
    (aid : AccountId) :
    mutationsForL (l ++ [x]) aid =
      mutationsForL l aid ++ if x.debit_account_id = aid then [x] else [] := by
  unfold mutationsForL
  rw [List.filter_append]
  by_cases h : x.debit_account_id = aid <;> simp [h]

theorem snapshotsForL_eq_nil (l : List AccountBalanceRow) (aid : AccountId)
    (h : ∀ r ∈ l, r.account_id ≠ aid) : snapshotsForL l aid = [] := by
  unfold snapshotsForL
  exact List.filter_eq_nil_iff.mpr (by simpa using h)

theorem mutationsForL_eq_nil (l : List MutationRow) (aid : AccountId)
    (h : ∀ m ∈ l, m.debit_account_id ≠ aid) : mutationsForL l aid = [] := by
  unfold mutationsForL
  exact List.filter_eq_nil_iff.mpr (by simpa using h)

theorem latestIn_append_of_ne (l : List AccountBalanceRow)
    (x : AccountBalanceRow) (aid : AccountId) (h : x.account_id ≠ aid) :
    latestIn (l ++ [x]) aid = latestIn l aid := by
  unfold latestIn
  rw [snapshotsForL_append, if_neg h, List.append_nil]

theorem latestIn_append_self (l : List AccountBalanceRow)
    (x : AccountBalanceRow) (aid : AccountId) (hacc : x.account_id = aid)
    (hgt : ∀ r ∈ snapshotsForL l aid, r.mutation_id < x.mutation_id) :
    latestIn (l ++ [x]) aid = some x := by
  unfold latestIn
  rw [snapshotsForL_append, if_pos hacc, List.foldl_append]
  cases h2 : (snapshotsForL l aid).foldl latestStep none with
  | none => rfl
  | some b =>
      rcases latestStep_foldl_mem _ _ _ h2 with hmem | habs
      · simp [latestStep, hgt b hmem]
      · simp at habs

theorem currentOf_append_of_ne (l : List AccountBalanceRow)
    (x : AccountBalanceRow) (aid : AccountId) (h : x.account_id ≠ aid) :
    currentOf (l ++ [x]) aid = currentOf l aid := by
  unfold currentOf
  rw [latestIn_append_of_ne l x aid h]

theorem currentOf_append_self (l : List AccountBalanceRow)
    (x : AccountBalanceRow) (aid : AccountId) (hacc : x.account_id = aid)
    (hgt : ∀ r ∈ snapshotsForL l aid, r.mutation_id < x.mutation_id) :
    currentOf (l ++ [x]) aid = x.post_balance := by
  unfold currentOf
  rw [latestIn_append_self l x aid hacc hgt]
  rfl

theorem currentOf_of_no_snapshot (l : List AccountBalanceRow)
    (aid : AccountId) (h : snapshotsForL l aid = []) : currentOf l aid = 0 := by
  unfold currentOf latestIn
  rw [h]
  rfl

theorem runningSums_append (c : ℚ) (l : List ℚ) (a : ℚ) :
    runningSums c (l ++ [a]) = runningSums c l ++ [c + l.sum + a] := by
  induction l generalizing c with
  | nil => simp [runningSums]
  | cons x xs ih =>
      simp only [List.cons_append, runningSums, List.sum_cons, List.append_eq]
      rw [ih (c + x)]
      congr 2
      ring_nf

/-! ### The ledger invariant -/

/-- The well-formedness invariant of the ledger tables. Auto-assigned ids are
below their sequences' next values; mutation and snapshot tables are ordered
by id; for every account, its snapshots match its mutations one-to-one in
order, their `post_balance` values are the running sums of the mutation
amounts (so `post_balance[i] = post_balance[i-1] + amount[i]`, starting from
zero), and the current balance equals the fold of the account's history. -/
structure LedgerInv (s : DbState) : Prop where
  acct_id_lt : ∀ r ∈ s.accounts, r.id < s.next_account_id
  tx_id_lt : ∀ t ∈ s.transactions, t.id < s.next_transaction_id
  mut_id_lt : ∀ m ∈ s.mutations, m.id < s.next_mutation_id
  mut_tx_lt : ∀ m ∈ s.mutations, m.transaction_id < s.next_transaction_id
  mut_acct_lt : ∀ m ∈ s.mutations, m.debit_account_id < s.next_account_id
  snap_id_lt : ∀ r ∈ s.account_balances, r.mutation_id < s.next_mutation_id
  snap_acct_lt : ∀ r ∈ s.account_balances, r.account_id < s.next_account_id
  mut_sorted : s.mutations.Pairwise (fun m1 m2 => m1.id < m2.id)
  snap_sorted :
    s.account_balances.Pairwise (fun r1 r2 => r1.mutation_id < r2.mutation_id)
  snap_ids : ∀ aid,
    (snapshotsForL s.account_balances aid).map (fun r => r.mutation_id)
      = (mutationsForL s.mutations aid).map (fun m => m.id)
  snap_chain : ∀ aid,
    (snapshotsForL s.account_balances aid).map (fun r => r.post_balance)
      = runningSums 0 ((mutationsForL s.mutations aid).map (fun m => m.amount))
  balance_hist : ∀ aid, currentOf s.account_balances aid = historyTotal s aid

theorem ledgerInv_empty : LedgerInv DbState.empty := by
  constructor <;>
    simp [DbState.empty, snapshotsForL, mutationsForL, currentOf, latestIn,
      historyTotal, runningSums]

/-! ### Projections of `incomeResult` and success of the commit -/

@[simp]
theorem incomeResult_accounts (s : DbState) (u : Nat) (a : ℚ) :
    (incomeResult s u a).accounts = (ensure_points_account s u).1.accounts := rfl

@[simp]
theorem incomeResult_transactions (s : DbState) (u : Nat) (a : ℚ) :
    (incomeResult s u a).transactions = s.transactions ++
      [({ id := s.next_transaction_id, type := "income" } : TransactionRow)] :=
  rfl

@[simp]
theorem incomeResult_mutations (s : DbState) (u : Nat) (a : ℚ) :
    (incomeResult s u a).mutations = s.mutations ++
      [({ id := s.next_mutation_id, transaction_id := s.next_transaction_id,
          debit_account_id := (ensure_points_account s u).2.id,
          amount := a } : MutationRow)] := rfl

@[simp]
theorem incomeResult_account_balances (s : DbState) (u : Nat) (a : ℚ) :
    (incomeResult s u a).account_balances = s.account_balances ++
      [({ account_id := (ensure_points_account s u).2.id,
          mutation_id := s.next_mutation_id,
          post_balance :=
            currentOf s.account_balances (ensure_points_account s u).2.id + a } :
            AccountBalanceRow)] := rfl

@[simp]
theorem incomeResult_next_transaction_id (s : DbState) (u : Nat) (a : ℚ) :
    (incomeResult s u a).next_transaction_id = s.next_transaction_id + 1 := rfl

@[simp]
theorem incomeResult_next_mutation_id (s : DbState) (u : Nat) (a : ℚ) :
    (incomeResult s u a).next_mutation_id = s.next_mutation_id + 1 := rfl

@[simp]
theorem incomeResult_next_account_id (s : DbState) (u : Nat) (a : ℚ) :
    (incomeResult s u a).next_account_id =
      (ensure_points_account s u).1.next_account_id := rfl

theorem ensure_snd_id_lt (s : DbState) (u : Nat)
    (h : ∀ r ∈ s.accounts, r.id < s.next_account_id) :
    (ensure_points_account s u).2.id <
      (ensure_points_account s u).1.next_account_id := by
  unfold ensure_points_account
  cases hf : s.accounts.find? (fun r => r.user_id == u) with
  | some r => simpa using h r (List.mem_of_find?_eq_some hf)
  | none => simp

theorem ensure_next_acct_le (s : DbState) (u : Nat) :
    s.next_account_id ≤ (ensure_points_account s u).1.next_account_id := by
  unfold ensure_points_account
  cases s.accounts.find? (fun r => r.user_id == u) <;> simp

theorem ensure_accounts_id_lt (s : DbState) (u : Nat)
    (h : ∀ r ∈ s.accounts, r.id < s.next_account_id) :
    ∀ r ∈ (ensure_points_account s u).1.accounts,
      r.id < (ensure_points_account s u).1.next_account_id := by
  unfold ensure_points_account
  cases hf : s.accounts.find? (fun r => r.user_id == u) with
  | some r => simpa using h
  | none =>
      intro r hr
      simp only [List.mem_append, List.mem_singleton] at hr
      rcases hr with hr | hr
      · exact Nat.lt_succ_of_lt (h r hr)
      · simp [hr]

/-- The balance loaded by `ensure_points_account` is the account's current
balance, provided no snapshot row refers to an id at or above the account-id
sequence (a fresh account really is fresh). -/
theorem ensure_balance_eq (s : DbState) (u : Nat)
    (hs : ∀ r ∈ s.account_balances, r.account_id < s.next_account_id) :
    (ensure_points_account s u).2.balance =
      currentOf s.account_balances (ensure_points_account s u).2.id := by
  unfold ensure_points_account
  cases hf : s.accounts.find? (fun r => r.user_id == u) with
  | some r => simp
  | none =>
      simp only
      rw [currentOf_of_no_snapshot]
      apply snapshotsForL_eq_nil
      intro r hr
      exact Nat.ne_of_lt (hs r hr)

/-- Under the ledger invariant the final assertion of
`create_transaction_income` always passes, so the commit succeeds, appends the
rows of `incomeResult`, and returns the fresh transaction id. -/
theorem create_ok (s : DbState) (u : Nat) (a : ℚ) (hInv : LedgerInv s) :
    create_transaction_income s u a =
      Except.ok (incomeResult s u a, s.next_transaction_id) := by
  rw [create_transaction_income_eq, if_pos]
  rw [ensure_balance_eq s u hInv.snap_acct_lt]
  exact add_comm a _

/-- In any state at all: if `create_transaction_income` returns `ok`, the new
state is exactly `incomeResult` and the returned id is the fresh
transaction id. -/
theorem create_ok_inv (s : DbState) (u : Nat) (a : ℚ) (s1 : DbState)
    (tid : TransactionId)
    (h : create_transaction_income s u a = Except.ok (s1, tid)) :
    s1 = incomeResult s u a ∧ tid = s.next_transaction_id := by
  rw [create_transaction_income_eq] at h
  by_cases hc : a + (ensure_points_account s u).2.balance
      = currentOf s.account_balances (ensure_points_account s u).2.id + a
  · rw [if_pos hc] at h
    have h2 := (Except.ok.injEq _ _).mp h
    exact ⟨(congrArg Prod.fst h2).symm, (congrArg Prod.snd h2).symm⟩
  · rw [if_neg hc] at h
    exact absurd h (by simp)

/-- The ledger invariant is preserved by a successful income commit. -/
theorem ledgerInv_incomeResult (s : DbState) (u : Nat) (a : ℚ)
    (hInv : LedgerInv s) : LedgerInv (incomeResult s u a) := by
  refine ⟨?_, ?_, ?_, ?_, ?_, ?_, ?_, ?_, ?_, ?_, ?_, ?_⟩
  · simpa using ensure_accounts_id_lt s u hInv.acct_id_lt
  · simp only [incomeResult_transactions, incomeResult_next_transaction_id]
    intro t ht
    rcases List.mem_append.mp ht with h | h
    · exact Nat.lt_succ_of_lt (hInv.tx_id_lt t h)
    · simp only [List.mem_singleton] at h
      simp [h]
  · simp only [incomeResult_mutations, incomeResult_next_mutation_id]
    intro m hm
    rcases List.mem_append.mp hm with h | h
    · exact Nat.lt_succ_of_lt (hInv.mut_id_lt m h)
    · simp only [List.mem_singleton] at h
      simp [h]
  · simp only [incomeResult_mutations, incomeResult_next_transaction_id]
    intro m hm
    rcases List.mem_append.mp hm with h | h
    · exact Nat.lt_succ_of_lt (hInv.mut_tx_lt m h)
    · simp only [List.mem_singleton] at h
      simp [h]
  · simp only [incomeResult_mutations, incomeResult_next_account_id]
    intro m hm
    rcases List.mem_append.mp hm with h | h
    · exact Nat.lt_of_lt_of_le (hInv.mut_acct_lt m h) (ensure_next_acct_le s u)
    · simp only [List.mem_singleton] at h
      rw [h]
      exact ensure_snd_id_lt s u hInv.acct_id_lt
  · simp only [incomeResult_account_balances, incomeResult_next_mutation_id]
    intro r hr
    rcases List.mem_append.mp hr with h | h
    · exact Nat.lt_succ_of_lt (hInv.snap_id_lt r h)
    · simp only [List.mem_singleton] at h
      simp [h]
  · simp only [incomeResult_account_balances, incomeResult_next_account_id]
    intro r hr
    rcases List.mem_append.mp hr with h | h
    · exact Nat.lt_of_lt_of_le (hInv.snap_acct_lt r h) (ensure_next_acct_le s u)
    · simp only [List.mem_singleton] at h
      rw [h]
      exact ensure_snd_id_lt s u hInv.acct_id_lt
  · simp only [incomeResult_mutations]
    refine List.pairwise_append.mpr ⟨hInv.mut_sorted, by simp, ?_⟩
    intro m hm y hy
    simp only [List.mem_singleton] at hy
    rw [hy]
    exact hInv.mut_id_lt m hm
  · simp only [incomeResult_account_balances]
    refine List.pairwise_append.mpr ⟨hInv.snap_sorted, by simp, ?_⟩
    intro r hr y hy
    simp only [List.mem_singleton] at hy
    rw [hy]
    exact hInv.snap_id_lt r hr
  · intro aid
    simp only [incomeResult_account_balances, incomeResult_mutations,
      snapshotsForL_append, mutationsForL_append]
    by_cases hA : (ensure_points_account s u).2.id = aid
    · simp [hA, hInv.snap_ids aid]
    · simp [hA, hInv.snap_ids aid]
  · intro aid
    simp only [incomeResult_account_balances, incomeResult_mutations,
      snapshotsForL_append, mutationsForL_append]
    by_cases hA : (ensure_points_account s u).2.id = aid
    · simp [hA, runningSums_append, hInv.snap_chain aid, hInv.balance_hist aid,
        historyTotal]
    · simp [hA, hInv.snap_chain aid]
  · intro aid
    simp only [incomeResult_account_balances]
    by_cases hA : (ensure_points_account s u).2.id = aid
    · have hgt : ∀ r ∈ snapshotsForL s.account_balances aid,
          r.mutation_id < s.next_mutation_id :=
        fun r hr => hInv.snap_id_lt r (List.mem_of_mem_filter hr)
      rw [currentOf_append_self _ _ _ (by simp [hA]) hgt]
      simp [historyTotal, incomeResult_mutations, mutationsForL_append, hA,
        hInv.balance_hist aid]
    · rw [currentOf_append_of_ne _ _ _ (by simp [hA])]
      simp [historyTotal, incomeResult_mutations, mutationsForL_append, hA]
      exact hInv.balance_hist aid

/-- The ledger invariant holds after any sequence of income operations. -/
theorem ledgerInv_applyOps (s : DbState) (hInv : LedgerInv s)
    (ops : List (Nat × ℚ)) : LedgerInv (applyOps s ops) := by
  induction ops generalizing s with
  | nil => exact hInv
  | cons op rest ih =>
      obtain ⟨u, a⟩ := op
      rw [applyOps, create_ok s u a hInv]
      exact ih _ (ledgerInv_incomeResult s u a hInv)

/-- The account row delivered by `ensure_points_account` is in the resulting
account table and belongs to the requested user. -/
theorem ensure_mem_accounts (s : DbState) (u : Nat) :
    ∃ r ∈ (ensure_points_account s u).1.accounts,
      r.user_id = u ∧ r.id = (ensure_points_account s u).2.id := by
  unfold ensure_points_account
  cases hf : s.accounts.find? (fun r => r.user_id == u) with
  | some r =>
      refine ⟨r, ?_, ?_, ?_⟩
      · simpa using List.mem_of_find?_eq_some hf
      · simpa using List.find?_some hf
      · simp
  | none =>
      refine ⟨{ id := s.next_account_id, user_id := u }, ?_, rfl, rfl⟩
      simp

/-! ### Claim theorems -/

/-- C1: for every positive amount `a` and every user `u`, in any state
satisfying the ledger invariant, `create_transaction_income` succeeds,
increases the current balance of `u`'s points account by exactly `a`, and
creates exactly one new mutation row and exactly one new balance-snapshot
row. -/
theorem C1_income_conservation (s : DbState) (u : Nat) (a : ℚ)
    (hInv : LedgerInv s) (_hpos : 0 < a) :
    ∃ s1 tid, create_transaction_income s u a = Except.ok (s1, tid) ∧
      currentOf s1.account_balances (ensure_points_account s u).2.id
        = currentOf s.account_balances (ensure_points_account s u).2.id + a ∧
      s1.mutations.length = s.mutations.length + 1 ∧
      s1.account_balances.length = s.account_balances.length + 1 := by
  refine ⟨incomeResult s u a, s.next_transaction_id, create_ok s u a hInv,
    ?_, by simp, by simp⟩
  rw [incomeResult_account_balances]
  have hgt : ∀ r ∈ snapshotsForL s.account_balances
      (ensure_points_account s u).2.id,
      r.mutation_id < s.next_mutation_id :=
    fun r hr => hInv.snap_id_lt r (List.mem_of_mem_filter hr)
  rw [currentOf_append_self _ _ _ rfl hgt]

/-- Witness for C1: empty database, user 1, amount 100. -/
theorem C1_witness :
    LedgerInv DbState.empty ∧ (0 : ℚ) < 100 ∧
      (∃ s1 tid,
        create_transaction_income DbState.empty 1 100 = Except.ok (s1, tid) ∧
        currentOf s1.account_balances
            (ensure_points_account DbState.empty 1).2.id
          = currentOf DbState.empty.account_balances
              (ensure_points_account DbState.empty 1).2.id + 100 ∧
        s1.mutations.length = DbState.empty.mutations.length + 1 ∧
        s1.account_balances.length
          = DbState.empty.account_balances.length + 1) :=
  ⟨ledgerInv_empty, by norm_num,
    C1_income_conservation DbState.empty 1 100 ledgerInv_empty (by norm_num)⟩

/-- C2: the snapshot-chain invariant — per account, the snapshots (which the
invariant keeps ordered by `mutation_id`) match the account's mutations
one-to-one and carry the running sums of the mutation amounts starting from
zero, so `post_balance[i] = post_balance[i-1] + amount[i]` with
`post_balance[0] = amount[0]` — is preserved by every commit performed
through the ledger, and an account with no snapshots has current balance
zero (so the prior balance of a fresh account's first snapshot is zero). -/
theorem C2_snapshot_chain_preserved (s : DbState) (u : Nat) (a : ℚ)
    (s1 : DbState) (tid : TransactionId) (hInv : LedgerInv s)
    (h : create_transaction_income s u a = Except.ok (s1, tid)) :
    LedgerInv s1 ∧
      ∀ aid, snapshotsForL s1.account_balances aid = [] →
        currentOf s1.account_balances aid = 0 := by
  obtain ⟨hs, -⟩ := create_ok_inv s u a s1 tid h
  subst hs
  exact ⟨ledgerInv_incomeResult s u a hInv,
    fun aid hnil => currentOf_of_no_snapshot _ _ hnil⟩

/-- Witness for C2: empty database, user 1, amount 100. -/
theorem C2_witness :
    LedgerInv DbState.empty ∧
      create_transaction_income DbState.empty 1 100
        = Except.ok (incomeResult DbState.empty 1 100, 1) ∧
      (LedgerInv (incomeResult DbState.empty 1 100) ∧
        ∀ aid,
          snapshotsForL (incomeResult DbState.empty 1 100).account_balances aid
            = [] →
          currentOf (incomeResult DbState.empty 1 100).account_balances aid
            = 0) :=
  ⟨ledgerInv_empty, create_ok DbState.empty 1 100 ledgerInv_empty,
    C2_snapshot_chain_preserved DbState.empty 1 100
      (incomeResult DbState.empty 1 100) 1 ledgerInv_empty
      (create_ok DbState.empty 1 100 ledgerInv_empty)⟩

/-- C3: replay equivalence — after any sequence of committed transactions
starting from the empty database, every account's current balance equals the
fold (sum) of the mutation amounts in that account's history, for any history
length including zero (a fresh account folds to balance 0). -/
theorem C3_replay_equivalence (ops : List (Nat × ℚ)) (aid : AccountId) :
    currentOf (applyOps DbState.empty ops).account_balances aid
      = historyTotal (applyOps DbState.empty ops) aid :=
  (ledgerInv_applyOps DbState.empty ledgerInv_empty ops).balance_hist aid

/-- C4 counterexample: committing an income of the non-positive amount −5
from the empty database is not rejected — `create_transaction_income`
performs no sign validation — so the call succeeds and persists a transaction
row, a mutation row (amount −5) and a snapshot row (post balance −5). -/
theorem C4_counterexample :
    create_transaction_income DbState.empty 1 (-5)
      = Except.ok
          ({ accounts := [{ id := 1, user_id := 1 }]
             transactions := [{ id := 1, type := "income" }]
             mutations := [{ id := 1, transaction_id := 1,
                             debit_account_id := 1, amount := -5 }]
             account_balances := [{ account_id := 1, mutation_id := 1,
                                    post_balance := -5 }]
             next_transaction_id := 2
             next_mutation_id := 2
             next_account_id := 2 }, 1) := by
  rw [create_transaction_income_eq]
  norm_num [ensure_points_account, DbState.empty, currentOf, latestIn,
    snapshotsForL, incomeResult]

/-- C4 amended: an income transaction consists of exactly one mutation, but
`create_transaction_income` performs no validation of the amount's sign: a
commit with any amount — non-positive included — succeeds and writes its
single mutation row carrying that amount, plus one snapshot row. -/
theorem C4_amended_no_sign_validation (s : DbState) (u : Nat) (a : ℚ)
    (hInv : LedgerInv s) :
    ∃ s1, create_transaction_income s u a
        = Except.ok (s1, s.next_transaction_id) ∧
      s1.mutations = s.mutations ++
        [({ id := s.next_mutation_id,
            transaction_id := s.next_transaction_id,
            debit_account_id := (ensure_points_account s u).2.id,
            amount := a } : MutationRow)] ∧
      s1.account_balances.length = s.account_balances.length + 1 :=
  ⟨incomeResult s u a, create_ok s u a hInv, rfl, by simp⟩

/-- Witness for the amended C4: empty database, user 1, amount −5. -/
theorem C4_amended_witness :
    LedgerInv DbState.empty ∧
      (∃ s1, create_transaction_income DbState.empty 1 (-5)
          = Except.ok (s1, DbState.empty.next_transaction_id) ∧
        s1.mutations = DbState.empty.mutations ++
          [({ id := DbState.empty.next_mutation_id,
              transaction_id := DbState.empty.next_transaction_id,
              debit_account_id :=
                (ensure_points_account DbState.empty 1).2.id,
              amount := -5 } : MutationRow)] ∧
        s1.account_balances.length
          = DbState.empty.account_balances.length + 1) :=
  ⟨ledgerInv_empty,
    C4_amended_no_sign_validation DbState.empty 1 (-5) ledgerInv_empty⟩

/-- A database state whose stored snapshot (999) disagrees with the fold of
the account's mutation history (10): used to show the commit-time assertion
is not a comparison against the recomputed fold. -/
def corruptState : DbState :=
  { accounts := [{ id := 1, user_id := 1 }]
    transactions := [{ id := 1, type := "income" }]
    mutations := [{ id := 1, transaction_id := 1, debit_account_id := 1,
                    amount := 10 }]
    account_balances := [{ account_id := 1, mutation_id := 1,
                           post_balance := 999 }]
    next_transaction_id := 2
    next_mutation_id := 2
    next_account_id := 2 }

/-- The state `corruptState` reaches after an income of 1 for user 1. -/
def corruptAfter : DbState :=
  { accounts := [{ id := 1, user_id := 1 }]
    transactions := [{ id := 1, type := "income" },
                     { id := 2, type := "income" }]
    mutations := [{ id := 1, transaction_id := 1, debit_account_id := 1,
                    amount := 10 },
                  { id := 2, transaction_id := 2, debit_account_id := 1,
                    amount := 1 }]
    account_balances := [{ account_id := 1, mutation_id := 1,
                           post_balance := 999 },
                         { account_id := 1, mutation_id := 2,
                           post_balance := 1000 }]
    next_transaction_id := 3
    next_mutation_id := 3
    next_account_id := 2 }

/-- C5 counterexample: committing an income of 1 in `corruptState` finalizes
successfully even though the newly computed snapshot (1000) differs from the
independently-recomputed fold of the account's full mutation history (11), so
the engine's pre-finalize check does not compare the new snapshot against
that fold and no `IntegrityError` aborts the commit. -/
theorem C5_counterexample :
    create_transaction_income corruptState 1 1
        = Except.ok (corruptAfter, 2) ∧
      currentOf corruptAfter.account_balances 1 = 1000 ∧
      historyTotal corruptAfter 1 = 11 ∧
      currentOf corruptAfter.account_balances 1 ≠ historyTotal corruptAfter 1 := by
  refine ⟨?_, ?_, ?_, ?_⟩
  · rw [create_transaction_income_eq]
    norm_num [ensure_points_account, corruptState, corruptAfter, currentOf,
      latestIn, snapshotsForL, latestStep, incomeResult, List.find?]
  · norm_num [corruptAfter, currentOf, latestIn, snapshotsForL, latestStep]
  · norm_num [corruptAfter, historyTotal, mutationsForL]
  · norm_num [corruptAfter, currentOf, historyTotal, latestIn, snapshotsForL,
      mutationsForL, latestStep]

/-- C5 amended: before finalizing, `create_transaction_income` asserts that
the database-computed snapshot equals the amount plus the account balance
loaded at account-resolution time — a cross-check of the application's view
against the database's `account_current_balance`, both derived from the
latest prior snapshot, not a recomputed fold of the full mutation history.
Under the ledger invariant (sequential execution) this assertion always
holds, so the commit always finalizes; its failure in the model is the only
abort path and returns an error with no state persisted. -/
theorem C5_amended_assert_latest_snapshot (s : DbState) (u : Nat) (a : ℚ)
    (hInv : LedgerInv s) :
    a + (ensure_points_account s u).2.balance
        = currentOf s.account_balances (ensure_points_account s u).2.id + a ∧
      create_transaction_income s u a
        = Except.ok (incomeResult s u a, s.next_transaction_id) ∧
      (incomeResult s u a).account_balances.getLast?
        = some ({ account_id := (ensure_points_account s u).2.id,
                  mutation_id := s.next_mutation_id,
                  post_balance :=
                    currentOf s.account_balances
                      (ensure_points_account s u).2.id + a } :
                  AccountBalanceRow) := by
  refine ⟨?_, create_ok s u a hInv, ?_⟩
  · rw [ensure_balance_eq s u hInv.snap_acct_lt]
    exact add_comm a _
  · rw [incomeResult_account_balances]
    exact List.getLast?_concat _

/-- Witness for the amended C5: empty database, user 1, amount 100. -/
theorem C5_amended_witness :
    LedgerInv DbState.empty ∧
      ((100 : ℚ) + (ensure_points_account DbState.empty 1).2.balance
          = currentOf DbState.empty.account_balances
              (ensure_points_account DbState.empty 1).2.id + 100 ∧
        create_transaction_income DbState.empty 1 100
          = Except.ok (incomeResult DbState.empty 1 100,
              DbState.empty.next_transaction_id) ∧
        (incomeResult DbState.empty 1 100).account_balances.getLast?
          = some ({ account_id := (ensure_points_account DbState.empty 1).2.id,
                    mutation_id := DbState.empty.next_mutation_id,
                    post_balance :=
                      currentOf DbState.empty.account_balances
                        (ensure_points_account DbState.empty 1).2.id + 100 } :
                    AccountBalanceRow)) :=
  ⟨ledgerInv_empty,
    C5_amended_assert_latest_snapshot DbState.empty 1 100 ledgerInv_empty⟩

/-- C6: the commit algorithm inserts the `transaction` row, obtaining the
fresh `transaction_id` (which the call returns), then inserts the `mutation`
row referencing that `transaction_id`, then computes and inserts the
`BalanceSnapshot` row as `previous_balance(account) + amount`, where
`previous_balance` is the latest snapshot visible to the still-open unit of
work (zero when the account has none). -/
theorem C6_commit_algorithm (s : DbState) (u : Nat) (a : ℚ)
    (hInv : LedgerInv s) :
    ∃ s1, create_transaction_income s u a
        = Except.ok (s1, s.next_transaction_id) ∧
      s1.transactions = s.transactions ++
        [({ id := s.next_transaction_id, type := "income" } :
            TransactionRow)] ∧
      s1.mutations = s.mutations ++
        [({ id := s.next_mutation_id,
            transaction_id := s.next_transaction_id,
            debit_account_id := (ensure_points_account s u).2.id,
            amount := a } : MutationRow)] ∧
      s1.account_balances = s.account_balances ++
        [({ account_id := (ensure_points_account s u).2.id,
            mutation_id := s.next_mutation_id,
            post_balance :=
              currentOf s.account_balances
                (ensure_points_account s u).2.id + a } :
            AccountBalanceRow)] :=
  ⟨incomeResult s u a, create_ok s u a hInv, rfl, rfl, rfl⟩

/-- Witness for C6: empty database, user 1, amount 100. -/
theorem C6_witness :
    LedgerInv DbState.empty ∧
      (∃ s1, create_transaction_income DbState.empty 1 100
          = Except.ok (s1, DbState.empty.next_transaction_id) ∧
        s1.transactions = DbState.empty.transactions ++
          [({ id := DbState.empty.next_transaction_id, type := "income" } :
              TransactionRow)] ∧
        s1.mutations = DbState.empty.mutations ++
          [({ id := DbState.empty.next_mutation_id,
              transaction_id := DbState.empty.next_transaction_id,
              debit_account_id :=
                (ensure_points_account DbState.empty 1).2.id,
              amount := 100 } : MutationRow)] ∧
        s1.account_balances = DbState.empty.account_balances ++
          [({ account_id := (ensure_points_account DbState.empty 1).2.id,
              mutation_id := DbState.empty.next_mutation_id,
              post_balance :=
                currentOf DbState.empty.account_balances
                  (ensure_points_account DbState.empty 1).2.id + 100 } :
              AccountBalanceRow)]) :=
  ⟨ledgerInv_empty, C6_commit_algorithm DbState.empty 1 100 ledgerInv_empty⟩

/-- C7: `create_transaction_income` first ensures the owner's points account
exists (creating it lazily, so the call succeeds even for a user with no
account row yet), then commits an income transaction whose only mutation
targets that account with the given amount, and returns the id of the newly
created transaction row (drawn from the transaction id sequence, not the
mutation's id). -/
theorem C7_wrapper_returns_transaction_id (s : DbState) (u : Nat) (a : ℚ)
    (hInv : LedgerInv s) :
    ∃ s1, create_transaction_income s u a
        = Except.ok (s1, s.next_transaction_id) ∧
      (∃ r ∈ s1.accounts,
        r.user_id = u ∧ r.id = (ensure_points_account s u).2.id) ∧
      s1.transactions.getLast?
        = some ({ id := s.next_transaction_id, type := "income" } :
            TransactionRow) ∧
      (s1.mutations.filter
          (fun m => m.transaction_id == s.next_transaction_id)).map
            (fun m => (m.debit_account_id, m.amount))
        = [((ensure_points_account s u).2.id, a)] := by
  refine ⟨incomeResult s u a, create_ok s u a hInv, ?_, ?_, ?_⟩
  · simpa using ensure_mem_accounts s u
  · rw [incomeResult_transactions]
    exact List.getLast?_concat _
  · rw [incomeResult_mutations, List.filter_append]
    have hold : s.mutations.filter
        (fun m => m.transaction_id == s.next_transaction_id) = [] := by
      refine List.filter_eq_nil_iff.mpr ?_
      intro m hm
      simpa using Nat.ne_of_lt (hInv.mut_tx_lt m hm)
    rw [hold]
    simp

/-- Witness for C7: empty database, user 1, amount 100. -/
theorem C7_witness :
    LedgerInv DbState.empty ∧
      (∃ s1, create_transaction_income DbState.empty 1 100
          = Except.ok (s1, DbState.empty.next_transaction_id) ∧
        (∃ r ∈ s1.accounts,
          r.user_id = 1 ∧ r.id = (ensure_points_account DbState.empty 1).2.id) ∧
        s1.transactions.getLast?
          = some ({ id := DbState.empty.next_transaction_id,
                    type := "income" } : TransactionRow) ∧
        (s1.mutations.filter
            (fun m => m.transaction_id == DbState.empty.next_transaction_id)).map
              (fun m => (m.debit_account_id, m.amount))
          = [((ensure_points_account DbState.empty 1).2.id, 100)]) :=
  ⟨ledgerInv_empty,
    C7_wrapper_returns_transaction_id DbState.empty 1 100 ledgerInv_empty⟩

/-- C8: frame property — a successful `create_transaction_income` call for
user `u` writes no mutation row and no balance-snapshot row for any account
other than `u`'s points account, and leaves `account_current_balance` of
every other account unchanged. This holds for any successful call from any
state, no invariant needed. -/
theorem C8_no_other_account_touched (s : DbState) (u : Nat) (a : ℚ)
    (b : AccountId) (s1 : DbState) (tid : TransactionId)
    (h : create_transaction_income s u a = Except.ok (s1, tid))
    (hb : b ≠ (ensure_points_account s u).2.id) :
    mutationsForL s1.mutations b = mutationsForL s.mutations b ∧
      snapshotsForL s1.account_balances b
        = snapshotsForL s.account_balances b ∧
      account_current_balance s1 b = account_current_balance s b := by
  obtain ⟨hs, -⟩ := create_ok_inv s u a s1 tid h
  subst hs
  refine ⟨?_, ?_, ?_⟩
  · rw [incomeResult_mutations, mutationsForL_append,
      if_neg (fun hh => hb hh.symm), List.append_nil]
  · rw [incomeResult_account_balances, snapshotsForL_append,
      if_neg (fun hh => hb hh.symm), List.append_nil]
  · unfold account_current_balance
    rw [incomeResult_account_balances,
      latestIn_append_of_ne _ _ _ (fun hh => hb hh.symm)]

/-- Witness for C8: empty database, user 1, amount 100, other account 2. -/
theorem C8_witness :
    create_transaction_income DbState.empty 1 100
        = Except.ok (incomeResult DbState.empty 1 100,
            DbState.empty.next_transaction_id) ∧
      (2 : AccountId) ≠ (ensure_points_account DbState.empty 1).2.id ∧
      (mutationsForL (incomeResult DbState.empty 1 100).mutations 2
          = mutationsForL DbState.empty.mutations 2 ∧
        snapshotsForL (incomeResult DbState.empty 1 100).account_balances 2
          = snapshotsForL DbState.empty.account_balances 2 ∧
        account_current_balance (incomeResult DbState.empty 1 100) 2
          = account_current_balance DbState.empty 2) :=
  ⟨create_ok DbState.empty 1 100 ledgerInv_empty,
    by simp [ensure_points_account, DbState.empty],
    C8_no_other_account_touched DbState.empty 1 100 2
      (incomeResult DbState.empty 1 100) DbState.empty.next_transaction_id
      (create_ok DbState.empty 1 100 ledgerInv_empty)
      (by simp [ensure_points_account, DbState.empty])⟩

/-! ### Color utilities (`hanson/models/color.py`)

Python floats are embedded as exact rationals; `int(...)` is truncation
toward zero. `Color` components are Python ints, embedded as `ℤ`. -/

/-- The `Color` named tuple: color values ranging from 0 to 255. -/
structure Color where
  r : ℤ
  g : ℤ
  b : ℤ
deriving DecidableEq

/-- One lowercase hexadecimal digit, as produced by Python's `%x` formatting
for a digit value `0 ≤ n < 16`. -/
def hexDigitChar (n : Nat) : Char :=
  if n < 10 then Char.ofNat (48 + n) else Char.ofNat (97 + (n - 10))

/-- Two lowercase hexadecimal digits: Python's `%02x` format of a component
in the range 0..255. -/
def hex2 (n : Nat) : List Char :=
  [hexDigitChar (n / 16), hexDigitChar (n % 16)]

/-- `Color.to_html_hex`: format as `#` and six hexadecimal digits,
e.g. `#ff0000` (faithful for components in 0..255, the documented range of
the fields). -/
def to_html_hex (c : Color) : String :=
  ⟨'#' :: (hex2 c.r.toNat ++ hex2 c.g.toNat ++ hex2 c.b.toNat)⟩

/-- The value of one hexadecimal digit character, upper or lower case, as
accepted by Python's `bytes.fromhex`. -/
def hexVal (c : Char) : Option Nat :=
  if '0' ≤ c ∧ c ≤ '9' then some (c.toNat - 48)
  else if 'a' ≤ c ∧ c ≤ 'f' then some (c.toNat - 97 + 10)
  else if 'A' ≤ c ∧ c ≤ 'F' then some (c.toNat - 65 + 10)
  else none

/-- `Color.from_html_hex`: parse a color consisting of `#` and six
hexadecimal digits. The source's assertions (leading `#`, length 7) and a
`bytes.fromhex` failure are modelled as `none`. -/
def from_html_hex (s : String) : Option Color :=
  match s.data with
  | ['#', c1, c2, c3, c4, c5, c6] =>
      match hexVal c1, hexVal c2, hexVal c3, hexVal c4, hexVal c5, hexVal c6 with
      | some h1, some h2, some h3, some h4, some h5, some h6 =>
          some { r := (16 * h1 + h2 : Nat), g := (16 * h3 + h4 : Nat),
                 b := (16 * h5 + h6 : Nat) }
      | _, _, _, _, _, _ => none
  | _ => none

/-- Python's `int(x)` on a real value: truncation toward zero. -/
def pyInt (x : ℚ) : ℤ :=
  if 0 ≤ x then ⌊x⌋ else ⌈x⌉

/-- `Color.from_rgb_floats`: create a color from floats, clamping each
component via `min(255, max(0, int(v * 255.0)))`. -/
def from_rgb_floats (r g b : ℚ) : Color :=
  { r := min 255 (max 0 (pyInt (r * 255)))
    g := min 255 (max 0 (pyInt (g * 255)))
    b := min 255 (max 0 (pyInt (b * 255))) }

theorem hexVal_hexDigitChar (d : Nat) (h : d < 16) :
    hexVal (hexDigitChar d) = some d := by
  interval_cases d <;> rfl

/-- C9: for every `Color` with integer components in 0..255,
`from_html_hex (to_html_hex c) = c` — the hex formatter and parser form an
exact round trip. -/
theorem C9_html_hex_round_trip (c : Color)
    (hr0 : 0 ≤ c.r) (hr1 : c.r ≤ 255) (hg0 : 0 ≤ c.g) (hg1 : c.g ≤ 255)
    (hb0 : 0 ≤ c.b) (hb1 : c.b ≤ 255) :
    from_html_hex (to_html_hex c) = some c := by
  obtain ⟨r, g, b⟩ := c
  simp only at hr0 hr1 hg0 hg1 hb0 hb1
  have hrn : r.toNat ≤ 255 := by omega
  have hgn : g.toNat ≤ 255 := by omega
  have hbn : b.toNat ≤ 255 := by omega
  simp only [to_html_hex, hex2, from_html_hex, List.cons_append,
    List.nil_append]
  rw [hexVal_hexDigitChar (r.toNat / 16) (by omega),
    hexVal_hexDigitChar (r.toNat % 16) (by omega),
    hexVal_hexDigitChar (g.toNat / 16) (by omega),
    hexVal_hexDigitChar (g.toNat % 16) (by omega),
    hexVal_hexDigitChar (b.toNat / 16) (by omega),
    hexVal_hexDigitChar (b.toNat % 16) (by omega)]
  simp only [Option.some.injEq, Color.mk.injEq]
  refine ⟨?_, ?_, ?_⟩ <;> omega

/-- Witness for C9 at the color `#ff0011`. -/
theorem C9_witness :
    (0 : ℤ) ≤ 255 ∧ (255 : ℤ) ≤ 255 ∧ (0 : ℤ) ≤ 0 ∧ (0 : ℤ) ≤ 255 ∧
      (0 : ℤ) ≤ 17 ∧ (17 : ℤ) ≤ 255 ∧
      from_html_hex (to_html_hex { r := 255, g := 0, b := 17 })
        = some { r := 255, g := 0, b := 17 } :=
  ⟨by norm_num, by norm_num, by norm_num, by norm_num, by norm_num,
    by norm_num,
    C9_html_hex_round_trip { r := 255, g := 0, b := 17 }
      (by norm_num) (by norm_num) (by norm_num) (by norm_num)
      (by norm_num) (by norm_num)⟩

/-- C10: for all rational inputs, including values outside `[0, 1]`,
`from_rgb_floats` returns a `Color` whose three integer components each lie
within 0..255 — out-of-range inputs are clamped, never producing an invalid
component. -/
theorem C10_from_rgb_floats_clamped (r g b : ℚ) :
    0 ≤ (from_rgb_floats r g b).r ∧ (from_rgb_floats r g b).r ≤ 255 ∧
      0 ≤ (from_rgb_floats r g b).g ∧ (from_rgb_floats r g b).g ≤ 255 ∧
      0 ≤ (from_rgb_floats r g b).b ∧ (from_rgb_floats r g b).b ≤ 255 := by
  simp only [from_rgb_floats]
  refine ⟨?_, ?_, ?_, ?_, ?_, ?_⟩ <;> omega

end Hanson
